import Mathlib

/-!
Shallow embedding of the djboulia/apiserver repository.

JavaScript values exchanged by the adapters are modelled by `JVal`
(JSON values plus the JS `undefined`); JS objects are association lists
of string keys.  JS numbers are modelled as integers (the code under
verification only ever compares JSON scalars).  Object/array values
compare by reference in JS; every comparison performed by this code
pits a freshly JSON-copied value against a caller-supplied one, so two
composite values are never the same reference and their (strict or
loose) equality is modelled as `false`.
-/

namespace ApiServer

/-- A JavaScript value: JSON values plus `undefined`. -/
inductive JVal : Type where
  | undef : JVal
  | null : JVal
  | bool : Bool → JVal
  | num : Int → JVal
  | str : String → JVal
  | arr : List JVal → JVal
  | obj : List (String × JVal) → JVal

/-- A JavaScript object: an ordered association list of properties. -/
abbrev Obj := List (String × JVal)

/-- Property read `o[k]` on an object: first matching key, `undefined` when absent. -/
def getProp : Obj → String → JVal
  | [], _ => .undef
  | (k1, v) :: rest, k => if k1 = k then v else getProp rest k

/-- Property assignment `o[k] = v`: overwrites the existing key in place,
otherwise appends the new property at the end (JS object semantics). -/
def setProp : Obj → String → JVal → Obj
  | [], k, v => [(k, v)]
  | (k1, v1) :: rest, k, v =>
    if k1 = k then (k, v) :: rest else (k1, v1) :: setProp rest k v

/-- Property deletion `delete o[k]`: removes the property. -/
def delProp (o : Obj) (k : String) : Obj :=
  o.filter (fun kv => kv.1 ≠ k)

/-- Whether an object has a property named `k`. -/
def hasKey (o : Obj) (k : String) : Bool :=
  o.any (fun kv => kv.1 = k)

/-- JS truthiness of a value. -/
def truthy : JVal → Bool
  | .undef => false
  | .null => false
  | .bool b => b
  | .num n => n ≠ 0
  | .str s => s ≠ ""
  | .arr _ => true
  | .obj _ => true

/-- JS strict equality `===` on the values compared by this code.
Objects and arrays compare by reference; all composite values compared
here sit on opposite sides of a JSON copy, hence `false`. -/
def strictEq : JVal → JVal → Bool
  | .undef, .undef => true
  | .null, .null => true
  | .bool a, .bool b => a = b
  | .num a, .num b => a = b
  | .str a, .str b => a = b
  | _, _ => false

/-- Accumulating decimal parser over characters: `none` when a
non-digit appears or when no digit was consumed. -/
def parseDigits : List Char → Option Nat → Option Nat
  | [], acc => acc
  | c :: rest, acc =>
    if c.isDigit then
      parseDigits rest (some ((acc.getD 0) * 10 + (c.toNat - 48)))
    else none

/-- The integer fragment of JS `ToNumber` on strings: the empty string
converts to `0`, otherwise an optionally negated run of decimal digits;
any other string is NaN (`none`). -/
def strToNum (s : String) : Option Int :=
  match s.data with
  | [] => some 0
  | c :: rest =>
    if c = Char.ofNat 45 then (parseDigits rest none).map (fun n => -(n : Int))
    else (parseDigits (c :: rest) none).map (fun n => (n : Int))

/-- JS loose equality `==` on the values compared by this code:
same-type scalars compare structurally, `null`/`undefined` equal each
other, numbers/strings/booleans coerce through `ToNumber`; composite
values compare by reference (never equal across a JSON copy). -/
def looseEq : JVal → JVal → Bool
  | .undef, .undef => true
  | .undef, .null => true
  | .null, .undef => true
  | .null, .null => true
  | .bool a, .bool b => a = b
  | .num a, .num b => a = b
  | .str a, .str b => a = b
  | .num a, .str s => strToNum s = some a
  | .str s, .num a => strToNum s = some a
  | .bool a, .num n => (if a then (1 : Int) else 0) = n
  | .num n, .bool a => (if a then (1 : Int) else 0) = n
  | .bool a, .str s => strToNum s = some (if a then (1 : Int) else 0)
  | .str s, .bool a => strToNum s = some (if a then (1 : Int) else 0)
  | _, _ => false

mutual

/-- Embeds `JSON.parse(JSON.stringify(v))` on a value: `undefined` appearing as
an array element serialises as `null`; inside objects it is handled by
`jsonNormObj` (the key is dropped), so the top-level `undefined` case
only arises for array elements. -/
def jsonNormVal : JVal → JVal
  | .undef => .null
  | .null => .null
  | .bool b => .bool b
  | .num n => .num n
  | .str s => .str s
  | .arr es => .arr (jsonNormList es)
  | .obj fs => .obj (jsonNormObj fs)

/-- JSON copy of the element list of an array. -/
def jsonNormList : List JVal → List JVal
  | [] => []
  | v :: rest => jsonNormVal v :: jsonNormList rest

/-- JSON copy of an object's property list: keys holding `undefined`
are dropped by `JSON.stringify`. -/
def jsonNormObj : List (String × JVal) → List (String × JVal)
  | [] => []
  | (k, v) :: rest =>
    match v with
    | .undef => jsonNormObj rest
    | v1 => (k, jsonNormVal v1) :: jsonNormObj rest

end

mutual

/-- A value is JSON-representable: it contains no `undefined` anywhere. -/
def noUndefVal : JVal → Bool
  | .undef => false
  | .null => true
  | .bool _ => true
  | .num _ => true
  | .str _ => true
  | .arr es => noUndefList es
  | .obj fs => noUndefObj fs

/-- All elements of a list are JSON-representable. -/
def noUndefList : List JVal → Bool
  | [] => true
  | v :: rest => noUndefVal v && noUndefList rest

/-- All property values of an object are JSON-representable. -/
def noUndefObj : List (String × JVal) → Bool
  | [] => true
  | (_, v) :: rest => noUndefVal v && noUndefObj rest

end

/-- Errors with which the embedded code can fail: a `TypeError` from a
property access on `undefined`/`null`, a `throw new Error(msg)`, or a
Promise rejection carrying a raw JS value. -/
inductive JsErr : Type where
  | typeError : JsErr
  | errorObj : String → JsErr
  | reject : JVal → JsErr

/-!
## Local file adapter (`FileDB`, source file `src/unnamed/part_001`)

The in-memory `contents` array is the adapter state (a list of flat
records tagged with `id` and `class` keys).  File I/O is modelled on
its success path: `rewriteDB` replaces `contents` and the write always
succeeds, so mutations return the updated state next to the settled
result; rejection paths in the source never reach `rewriteDB`, which
the embedding mirrors by returning the state unchanged.  The rejection
messages in the source interpolate the offending id; the embedding
keeps the fixed message prefix.
-/

/-- Embeds `fieldsMatch(record, fields)` of FileDB: every requested field must
loosely equal (`!=` is JS loose inequality) the record's value under
the same key. -/
def fieldsMatch (record : Obj) (fields : Obj) : Bool :=
  fields.all (fun kv => looseEq kv.2 (getProp record kv.1))

/-- The file-local helper `findById(id, records)`: first record whose
`id` strictly equals the requested id, `undefined` (`none`) otherwise. -/
def localFindById (idv : JVal) (records : List Obj) : Option Obj :=
  records.find? (fun r => strictEq (getProp r "id") idv)

/-- Embeds `FileDB.findAll(className)`: JSON-copies the contents and keeps the
records whose `class` strictly equals the class name. -/
def fileFindAll (cn : String) (contents : List Obj) : List Obj :=
  (contents.map jsonNormObj).filter (fun item => strictEq (getProp item "class") (.str cn))

/-- Embeds `FileDB.findByIds(className, ids)`: materialises `findAll` and then
pushes `findById(id, records)` for each requested id in order — a miss
pushes `undefined` (`none`). -/
def fileFindByIds (cn : String) (ids : List JVal) (contents : List Obj) : List (Option Obj) :=
  ids.map (fun idv => localFindById idv (fileFindAll cn contents))

/-- Embeds `FileDB.findByFields(className, fields)`: materialises `findAll`
and keeps the records accepted by `fieldsMatch`. -/
def fileFindByFields (cn : String) (fields : Obj) (contents : List Obj) : List Obj :=
  (fileFindAll cn contents).filter (fun r => fieldsMatch r fields)

/-- Embeds `FileDB.findById(className, id)`: resolves a JSON copy of the first
record matching both id and class, and rejects with a
`could not find id` string otherwise. -/
def fileFindById (cn : String) (idv : JVal) (contents : List Obj) : Except JsErr JVal :=
  match contents.find? (fun e => strictEq (getProp e "id") idv &&
      strictEq (getProp e "class") (.str cn)) with
  | some e => .ok (.obj (jsonNormObj e))
  | none => .error (.reject (.str "could not find id"))

/-- Embeds `FileDB.put(className, updateEntry)`: scans for an entry with the
same id; on a class mismatch (`!=`, loose) rejects, otherwise stores a
JSON copy of the update in place and resolves the original update
object; if no id matches it rejects with `could not find id` and never
rewrites the file. -/
def filePut (cn : String) (u : Obj) : List Obj → Except JsErr JVal × List Obj
  | [] => (.error (.reject (.str "could not find id")), [])
  | e :: rest =>
    if strictEq (getProp e "id") (getProp u "id") then
      if looseEq (getProp e "class") (.str cn) = false then
        (.error (.reject (.str "put: ids match but className not equal to entry class")), e :: rest)
      else
        (.ok (.obj u), jsonNormObj u :: rest)
    else
      let r := filePut cn u rest
      (r.1, e :: r.2)

/-- Embeds `FileDB.deleteById(className, key)`: splices out the first entry
matching both id and class and resolves `true`; with no match it
rejects with the raw value `false` and never rewrites the file. -/
def fileDeleteById (cn : String) (key : JVal) : List Obj → Except JsErr Bool × List Obj
  | [] => (.error (.reject (.bool false)), [])
  | e :: rest =>
    if strictEq (getProp e "id") key && strictEq (getProp e "class") (.str cn) then
      (.ok true, rest)
    else
      let r := fileDeleteById cn key rest
      (r.1, e :: r.2)

/-!
## Remote Dynamo adapter, inner layer (`src/db-dynamo/lib/dbimpl.js`)

The DynamoDB table is modelled as a list of items keyed by `id`
(`Table`); `client.put` replaces the item with the same key or appends,
`client.get` fetches by key, `client.delete` removes by key, and
`client.scan` filters the table in order with the filter expression the
code builds.  Backend I/O errors (the `err` callbacks) are outside the
model: the claims concern the adapter's own logic.  DynamoDB equality
inside filter expressions is typed exact equality, modelled by
`strictEq`.
-/

/-- A DynamoDB table: items in storage order, keyed by `id`. -/
abbrev Table := List Obj

/-- Property read on an arbitrary value, used where the source has
already guarded the receiver with a truthiness check (so the
`undefined`/`null` cases cannot throw here). -/
def prop (v : JVal) (k : String) : JVal :=
  match v with
  | .obj fs => getProp fs k
  | _ => (.undef : JVal)

/-- Embeds `client.put`: unconditional write — replaces the item bearing the
same `id` key, or appends the item. -/
def dynPutItem : Table → Obj → Table
  | [], item => [item]
  | e :: rest, item =>
    if strictEq (getProp e "id") (getProp item "id") then item :: rest
    else e :: dynPutItem rest item

/-- Embeds `dbimpl.put(className, obj)`: rejects when the object or any of its
`id`/`className`/`attributes` properties is falsy, rejects when
`obj.className != className` (loose), and otherwise performs an
unconditional `client.put` and resolves the object — there is no
existence check. -/
def dynamoPut (cn : String) (o : JVal) (t : Table) : Except JsErr JVal × Table :=
  if (truthy o && truthy (prop o "id") && truthy (prop o "className")
      && truthy (prop o "attributes")) = false then
    (.error (.reject (.str "put: invalid object: ")), t)
  else if looseEq (prop o "className") (.str cn) = false then
    (.error (.reject (.str "put: invalid class name: ")), t)
  else
    match o with
    | .obj fs => (.ok o, dynPutItem t fs)
    | _ => (.ok o, t)

/-- Embeds `dbimpl.findById(className, key)`: `client.get` by key; a missing
item leaves `data.Item` undefined and the subsequent
`data.Item.className` dereference throws a `TypeError`; a present item
whose `className != className` (loose) rejects (the stray `resolve`
after the reject loses the race); otherwise resolves the item. -/
def dynFindById (cn : String) (key : JVal) (t : Table) : Except JsErr JVal :=
  match t.find? (fun e => strictEq (getProp e "id") key) with
  | none => .error .typeError
  | some e =>
    if looseEq (getProp e "className") (.str cn) = false then
      .error (.reject (.str "findByid: classNames do not match!"))
    else .ok (.obj e)

/-- Embeds `dbimpl.findAll(className)`: scan filtered by
`className = :className`, in table order. -/
def dynFindAll (cn : String) (t : Table) : List Obj :=
  t.filter (fun e => strictEq (getProp e "className") (.str cn))

/-- Embeds `dbimpl.findByIds(className, ids)`: scan with filter
`className = :className AND id IN (...)` where the IN-list is built
from `Object.keys(idObject)` — which also contains the `:className`
placeholder, so the class name itself leaks into the id list.  Result
in table order; missing ids simply contribute nothing. -/
def dynFindByIds (cn : String) (ids : List JVal) (t : Table) : List Obj :=
  t.filter (fun e => strictEq (getProp e "className") (.str cn) &&
    ((JVal.str cn) :: ids).any (fun v => strictEq (getProp e "id") v))

/-- Embeds `dbimpl.findByFields(className, fields)`: builds
`className = :className AND attributes.f = :f AND ...` with a value map
seeded by `:className ↦ className` and extended per field — a field
literally named `className` overwrites that seed.  The scan keeps the
items satisfying the resulting expression, in table order; a missing
attribute path never equals a supplied value. -/
def dynFindByFields (cn : String) (fields : Obj) (t : Table) : List Obj :=
  let vals : Obj :=
    fields.foldl (fun acc kv => setProp acc (":" ++ kv.1) kv.2) [(":className", JVal.str cn)]
  t.filter (fun e => strictEq (getProp e "className") (getProp vals ":className") &&
    fields.all (fun kv => strictEq (prop (getProp e "attributes") kv.1) (getProp vals (":" ++ kv.1))))

/-- Embeds `client.delete` by key: removes the item bearing the key, if any. -/
def dynEraseById (key : JVal) : Table → Table
  | [] => []
  | e :: rest => if strictEq (getProp e "id") key then rest else e :: dynEraseById key rest

/-- Embeds `dbimpl.deleteById(className, key)`: unconditional `client.delete`
that resolves `true` whether or not the item existed (the class name is
never consulted). -/
def dynDeleteById (_cn : String) (key : JVal) (t : Table) : Except JsErr Bool × Table :=
  (.ok true, dynEraseById key t)

/-!
## Raw Dynamo model (source file `src/unnamed/part_000`)

The variant of the Dynamo layer that `src/model-db/index.js` wraps: its
`findById(key)` resolves `data.Item` without a class check, so a miss
resolves `undefined`; `put(obj)` checks only presence of the fields;
`deleteById(key)` is again an unconditional delete resolving `true`.
-/

/-- Embeds `part_000.findById(key)`: resolves the fetched item, or `undefined`
when the key is absent. -/
def p000FindById (key : JVal) (t : Table) : Except JsErr JVal :=
  match t.find? (fun e => strictEq (getProp e "id") key) with
  | none => .ok .undef
  | some e => .ok (.obj e)

/-- Embeds `part_000.deleteById(key)`: unconditional delete resolving `true`. -/
def p000DeleteById (key : JVal) (t : Table) : Except JsErr Bool × Table :=
  (.ok true, dynEraseById key t)

/-- Embeds `part_000.put(obj)`: rejects when the object or any of its
`id`/`className`/`attributes` properties is falsy and otherwise writes
unconditionally (no class-match check in this variant). -/
def p000Put (o : JVal) (t : Table) : Except JsErr JVal × Table :=
  if (truthy o && truthy (prop o "id") && truthy (prop o "className")
      && truthy (prop o "attributes")) = false then
    (.error (.reject (.str "put: invalid object: ")), t)
  else
    match o with
    | .obj fs => (.ok o, dynPutItem t fs)
    | _ => (.ok o, t)

/-!
## Model layer (`src/model-db/index.js`, wrapping `part_000`)

`DbModel` flattens `{id, className, attributes}` records into flat
caller-facing objects and restores them on the way in.  Its property
accesses run on whatever the backend resolved, so they can throw a
`TypeError` when that value is `undefined`.
-/

/-- Property read `v.k` on an arbitrary value: throws `TypeError` on
`undefined`/`null`; boxed primitives have no such own property, so the
read yields `undefined`. -/
def getPropV : JVal → String → Except JsErr JVal
  | .undef, _ => .error .typeError
  | .null, _ => .error .typeError
  | .obj fs, k => .ok (getProp fs k)
  | _, _ => .ok (.undef : JVal)

/-- Property assignment `v.k = x` on an arbitrary truthy value: updates
objects, and is a silent no-op on boxed primitives. -/
def setPropV (v : JVal) (k : String) (x : JVal) : JVal :=
  match v with
  | .obj fs => .obj (setProp fs k x)
  | _ => v

/-- Embeds `flattenModel(dbObj)` of DbModel (and of `db-dynamo/index.js`):
reads `dbObj.attributes` (throwing when `dbObj` is `undefined`), and if
the attributes are truthy injects `dbObj.id` into them under the `id`
key; the attributes value (possibly `undefined`) is returned. -/
def flattenModel (dbObj : JVal) : Except JsErr JVal :=
  match getPropV dbObj "attributes" with
  | .error e => .error e
  | .ok attributes =>
    if truthy attributes then
      match getPropV dbObj "id" with
      | .error e => .error e
      | .ok idv => .ok (setPropV attributes "id" idv)
    else .ok attributes

/-- Embeds `restoreModel(obj)` of DbModel: JSON-copies the flat object, sets
its `id` key to `undefined` (the key stays, with value `undefined`),
and wraps the result as `{id: obj.id, className: modelName,
attributes}`. -/
def restoreModel (modelName : String) (o : Obj) : Obj :=
  let attributes := setProp (jsonNormObj o) "id" .undef
  [("id", getProp o "id"), ("className", .str modelName), ("attributes", .obj attributes)]

/-- Embeds `restoreModel(className, obj)` of `src/db-dynamo/index.js`: same
shape, but the copied `id` key is removed with `delete` instead of
being set to `undefined`. -/
def dynRestoreModel (cn : String) (o : Obj) : Obj :=
  let attributes := delProp (jsonNormObj o) "id"
  [("id", getProp o "id"), ("className", .str cn), ("attributes", .obj attributes)]

/-- Embeds `DbModel.findById(id)`: backend lookup followed by `flattenModel`,
which throws a `TypeError` when the backend resolved `undefined`. -/
def dbFindById (key : JVal) (t : Table) : Except JsErr JVal :=
  match p000FindById key t with
  | .error e => .error e
  | .ok r => flattenModel r

/-- Embeds `DbModel.deleteById(id)`: passes the backend's boolean result
through `flattenModel`. -/
def dbDeleteById (key : JVal) (t : Table) : Except JsErr JVal × Table :=
  let r := p000DeleteById key t
  (match r.1 with
   | .ok b => flattenModel (.bool b)
   | .error e => .error e, r.2)

/-!
## Route server layer (`src/modelserver/lib/modelserver.js` and
`src/reactserver/index.js`)

The HTTP context is `{params, query, body, session}`.  Handlers resolve
a JS value or fail; `processError` renders failures as
`{code, message}` responses (a thrown `ServerError` keeps its code,
anything else becomes a 500 — the message of a non-Error rejection
value is not modelled).  Redirect and raw results are out of scope for
the claims and are not modelled.
-/

/-- The request context assembled by `callFn`. -/
structure Ctx : Type where
  params : Obj
  query : Obj
  body : JVal
  session : JVal

/-- What a handler invocation settles to. -/
inductive HandlerErr : Type where
  | serverError : Nat → String → HandlerErr
  | jsError : JsErr → HandlerErr

/-- An HTTP response: a JSON value or a `{code, message}` error. -/
inductive Resp : Type where
  | ok : JVal → Resp
  | err : Nat → String → Resp

/-- Embeds `processError`: a `ServerError` keeps its code and message; any
other failure is rendered as a 500. -/
def processError : HandlerErr → Resp
  | .serverError c m => .err c m
  | .jsError (.errorObj m) => .err 500 m
  | .jsError _ => .err 500 ""

/-- Outcome of one invocation of an auth predicate: it either throws
(rejects) or resolves a value whose truthiness is consulted. -/
inductive AuthRes : Type where
  | throws : AuthRes
  | val : JVal → AuthRes

/-- The value `callFn` sees after `await authFn(context).catch(...)`:
a rejection is swallowed by the `catch`, leaving `undefined`. -/
def authResult (a : Ctx → AuthRes) (ctx : Ctx) : JVal :=
  match a ctx with
  | .throws => .undef
  | .val v => v

/-- Embeds `reactserver.callFn(fn, authFn, ...)`: when an auth function is
present, a falsy (or caught-throw) auth result short-circuits with a
401 `Authentication Failed` error and the handler is not called;
otherwise the handler runs and its result or failure is rendered. -/
def callFn (authFn : Option (Ctx → AuthRes)) (fn : Ctx → Except HandlerErr JVal)
    (ctx : Ctx) : Resp :=
  match authFn with
  | some a =>
    if truthy (authResult a ctx) then
      match fn ctx with
      | .ok v => .ok v
      | .error e => processError e
    else .err 401 "Authentication Failed"
  | none =>
    match fn ctx with
    | .ok v => .ok v
    | .error e => processError e

/-- The `authHandler` wrapper built by `modelserver.serverMethod`: the
route's own predicate if supplied, else the global one, else
unconditionally `true`. -/
def authHandler (fnAuth globalAuthFn : Option (Ctx → AuthRes)) : Ctx → AuthRes :=
  fun ctx =>
    match fnAuth with
    | some f => f ctx
    | none =>
      match globalAuthFn with
      | some f => f ctx
      | none => .val (.bool true)

/-- A route installed through `modelserver.serverMethod`: `callFn` is
always given the wrapping `authHandler`. -/
def serverMethodCall (fnAuth globalAuthFn : Option (Ctx → AuthRes))
    (fn : Ctx → Except HandlerErr JVal) (ctx : Ctx) : Resp :=
  callFn (some (authHandler fnAuth globalAuthFn)) fn ctx

/-- JS `ToString` of a value used as a property key (only the string
case is exercised by the routes; composite keys are not modelled). -/
def propKey : JVal → String
  | .str s => s
  | .num n => toString n
  | .bool b => if b then "true" else "false"
  | .null => "null"
  | .undef => "undefined"
  | .arr _ => ""
  | .obj _ => ""

/-- One step of `modelserver.parseArgs`: dispatch on the entry's
`source` (a `switch` with strict string comparison): `param`/`query`
read the named request field, `body` passes the whole parsed body,
`session` the whole session object; any other source throws. -/
def argValue (ctx : Ctx) (a : Obj) : Except JsErr JVal :=
  match getProp a "source" with
  | .str s =>
    if s = "param" then .ok (getProp ctx.params (propKey (getProp a "name")))
    else if s = "query" then .ok (getProp ctx.query (propKey (getProp a "name")))
    else if s = "body" then .ok ctx.body
    else if s = "session" then .ok ctx.session
    else .error (.errorObj "invalid source type")
  | _ => .error (.errorObj "invalid source type")

/-- Embeds `modelserver.parseArgs(args, context)`: walks the parameter specs
in order, throwing on a falsy `name`, and collects one positional
argument per entry. -/
def parseArgs (args : List Obj) (ctx : Ctx) : Except JsErr (List JVal) :=
  match args with
  | [] => .ok []
  | a :: rest =>
    if truthy (getProp a "name") = false then
      .error (.errorObj "name property is required for each argument")
    else
      match argValue ctx a with
      | .error e => .error e
      | .ok v =>
        match parseArgs rest ctx with
        | .error e => .error e
        | .ok vs => .ok (v :: vs)

/-- The pure argument an entry selects once it has been validated
(mirrors the four recognised branches of `argValue`). -/
def specArg (ctx : Ctx) (a : Obj) : JVal :=
  match getProp a "source" with
  | .str s =>
    if s = "param" then getProp ctx.params (propKey (getProp a "name"))
    else if s = "query" then getProp ctx.query (propKey (getProp a "name"))
    else if s = "body" then ctx.body
    else if s = "session" then ctx.session
    else .undef
  | _ => (.undef : JVal)

/-- A parameter-spec entry the marshaler accepts: truthy `name` and one
of the four recognised sources. -/
def validSpec (a : Obj) : Bool :=
  truthy (getProp a "name") &&
    (match getProp a "source" with
     | .str s => s = "param" || s = "query" || s = "body" || s = "session"
     | _ => false)

/-- Embeds `existsById(id)` of the generated CRUD routes, over a `DbModel`
backed by `part_000`: a falsy id throws; otherwise
`model.findById(id)` runs and the result is compared with `undefined`
(strictly) to produce the boolean. -/
def existsById (idv : JVal) (t : Table) : Except JsErr JVal :=
  if truthy idv then
    match dbFindById idv t with
    | .ok r => .ok (.bool (if strictEq r .undef then false else true))
    | .error e => .error e
  else .error (.errorObj "existsById: invalid id")

/-!
## Helper lemmas
-/

mutual

theorem jsonNormVal_of_noUndef : ∀ (v : JVal), noUndefVal v = true → jsonNormVal v = v
  | .undef, h => by simp [noUndefVal] at h
  | .null, _ => rfl
  | .bool _, _ => rfl
  | .num _, _ => rfl
  | .str _, _ => rfl
  | .arr es, h => by
      simp only [jsonNormVal]
      rw [jsonNormList_of_noUndef es (by simpa [noUndefVal] using h)]
  | .obj fs, h => by
      simp only [jsonNormVal]
      rw [jsonNormObj_of_noUndef fs (by simpa [noUndefVal] using h)]

theorem jsonNormList_of_noUndef : ∀ (l : List JVal), noUndefList l = true → jsonNormList l = l
  | [], _ => rfl
  | v :: rest, h => by
      have h1 : noUndefVal v = true ∧ noUndefList rest = true := by
        simpa [noUndefList, Bool.and_eq_true] using h
      simp only [jsonNormList]
      rw [jsonNormVal_of_noUndef v h1.1, jsonNormList_of_noUndef rest h1.2]

theorem jsonNormObj_of_noUndef :
    ∀ (o : List (String × JVal)), noUndefObj o = true → jsonNormObj o = o
  | [], _ => rfl
  | (k, v) :: rest, h => by
      have h1 : noUndefVal v = true ∧ noUndefObj rest = true := by
        simpa [noUndefObj, Bool.and_eq_true] using h
      have hrest := jsonNormObj_of_noUndef rest h1.2
      have hv := jsonNormVal_of_noUndef v h1.1
      cases v with
      | undef => simp [noUndefVal] at h1
      | null => simp [jsonNormObj, hrest, hv]
      | bool b => simp [jsonNormObj, hrest, hv]
      | num n => simp [jsonNormObj, hrest, hv]
      | str s => simp [jsonNormObj, hrest, hv]
      | arr es => simp only [jsonNormObj, hrest, hv]
      | obj fs => simp only [jsonNormObj, hrest, hv]

end

theorem getProp_setProp_self (o : Obj) (k : String) (v : JVal) :
    getProp (setProp o k v) k = v := by
  induction o with
  | nil => simp [setProp, getProp]
  | cons kv rest ih =>
    obtain ⟨k1, v1⟩ := kv
    by_cases h : k1 = k <;> simp [setProp, getProp, h, ih]

theorem getProp_setProp_ne (o : Obj) (k1 k : String) (v : JVal) (h : k1 ≠ k) :
    getProp (setProp o k1 v) k = getProp o k := by
  induction o with
  | nil => simp [setProp, getProp, h]
  | cons kv rest ih =>
    obtain ⟨k2, v2⟩ := kv
    by_cases h2 : k2 = k1 <;> by_cases h3 : k2 = k <;>
      simp_all [setProp, getProp, Ne.symm h]

theorem setProp_setProp (o : Obj) (k : String) (v1 v2 : JVal) :
    setProp (setProp o k v1) k v2 = setProp o k v2 := by
  induction o with
  | nil => simp [setProp]
  | cons kv rest ih =>
    obtain ⟨k1, w⟩ := kv
    by_cases h : k1 = k <;> simp [setProp, h, ih]

theorem setProp_getProp_self (o : Obj) (k : String) (h : hasKey o k = true) :
    setProp o k (getProp o k) = o := by
  induction o with
  | nil => simp [hasKey] at h
  | cons kv rest ih =>
    obtain ⟨k1, v1⟩ := kv
    by_cases h1 : k1 = k
    · subst h1
      simp [setProp, getProp]
    · have h2 : hasKey rest k = true := by
        simpa [hasKey, h1] using h
      simp [setProp, getProp, h1, ih h2]

theorem getProp_delProp_self (o : Obj) (k : String) :
    getProp (delProp o k) k = .undef := by
  induction o with
  | nil => rfl
  | cons kv rest ih =>
    obtain ⟨k1, v1⟩ := kv
    simp only [delProp, List.filter_cons] at ih ⊢
    by_cases h : k1 = k <;> simp_all [getProp]

theorem getProp_delProp_ne (o : Obj) (k1 k : String) (h : k1 ≠ k) :
    getProp (delProp o k1) k = getProp o k := by
  induction o with
  | nil => rfl
  | cons kv rest ih =>
    obtain ⟨k2, v2⟩ := kv
    simp only [delProp, List.filter_cons] at ih ⊢
    by_cases h2 : k2 = k1 <;> by_cases h3 : k2 = k <;>
      simp_all [getProp, Ne.symm h]

/-!
## Claim theorems
-/

/-- Claim C10: whenever the backing database's `deleteById` resolves
with the boolean `true` (which `part_000`'s unconditional delete always
does), the `DbModel` wrapper's `deleteById` resolves to `undefined`
rather than that boolean, because the boolean is passed through
`flattenModel`, whose `attributes` lookup on a non-object yields no
value. -/
theorem c10_model_delete_returns_undefined (key : JVal) (t : Table) :
    p000DeleteById key t = (.ok true, dynEraseById key t) ∧
    flattenModel (.bool true) = .ok .undef ∧
    dbDeleteById key t = (.ok .undef, dynEraseById key t) := by
  exact ⟨rfl, rfl, rfl⟩

/-- Claim C8 (code bug): the `/:id/exists` route handler is meant to
respond `false` when no record with the id exists (its own
`(result === undefined) ? false : true` shows the intent), but over a
`DbModel` backed by `part_000` a miss makes `model.findById` feed
`undefined` into `flattenModel`, whose `dbObj.attributes` dereference
throws a `TypeError`, so the route fails instead of answering `false`;
when the record exists the handler does answer `true`. -/
theorem c8_exists_route_errors_on_missing_id :
    existsById (.str "xyz") [] = .error .typeError ∧
    existsById (.str "xyz")
      [[("id", .str "other"), ("className", .str "X"),
        ("attributes", .obj [("a", .num 1)])]] = .error .typeError ∧
    existsById (.str "other")
      [[("id", .str "other"), ("className", .str "X"),
        ("attributes", .obj [("a", .num 1)])]] = .ok (.bool true) := by
  exact ⟨rfl, rfl, rfl⟩

/-- Claim C7: for a route whose effective auth predicate is the route's
own one or, failing that, the global default, a predicate invocation
that throws or resolves a falsy value yields the
`{code: 401, message: "Authentication Failed"}` error and the bound
handler is never invoked (the response is the same for every handler);
a truthy resolution lets the bound handler run and its outcome is
rendered. -/
theorem c7_auth_gate (fnAuth g : Option (Ctx → AuthRes)) (p : Ctx → AuthRes)
    (fn : Ctx → Except HandlerErr JVal) (ctx : Ctx)
    (hp : fnAuth = some p ∨ (fnAuth = none ∧ g = some p)) :
    ((p ctx = .throws ∨ ∃ v, p ctx = .val v ∧ truthy v = false) →
      serverMethodCall fnAuth g fn ctx = .err 401 "Authentication Failed") ∧
    (∀ v, p ctx = .val v → truthy v = true →
      serverMethodCall fnAuth g fn ctx =
        (match fn ctx with
         | .ok r => .ok r
         | .error e => processError e)) := by
  have hah : authHandler fnAuth g ctx = p ctx := by
    rcases hp with h | ⟨h1, h2⟩
    · simp [authHandler, h]
    · simp [authHandler, h1, h2]
  constructor
  · intro hfail
    rcases hfail with h | ⟨v, hv, htr⟩
    · simp [serverMethodCall, callFn, authResult, hah, h, truthy]
    · simp [serverMethodCall, callFn, authResult, hah, hv, htr]
  · intro v hv htr
    simp [serverMethodCall, callFn, authResult, hah, hv, htr]

/-- Claim C7 witness: a route predicate that resolves `false` yields
the 401 error for a concrete request. -/
theorem c7_auth_gate_witness :
    serverMethodCall (some (fun _ => .val (.bool false))) none
      (fun _ => .ok .null) ⟨[], [], .null, .null⟩ =
      .err 401 "Authentication Failed" :=
  (c7_auth_gate (some (fun _ => .val (.bool false))) none
    (fun _ => .val (.bool false)) (fun _ => .ok .null)
    ⟨[], [], .null, .null⟩ (Or.inl rfl)).1
    (Or.inr ⟨.bool false, rfl, rfl⟩)

/-- Claim C9: the argument marshaler fails with a thrown configuration
error whenever some entry lacks a (truthy) `name` or names a source
outside `param`/`query`/`body`/`session`; when all entries are valid it
produces exactly one positional argument per entry, in spec order,
where a `body` entry receives the entire parsed body and a `session`
entry the whole session object (the content of `specArg`). -/
theorem c9_parse_args (args : List Obj) (ctx : Ctx) :
    ((∀ a ∈ args, validSpec a = true) →
      parseArgs args ctx = .ok (args.map (specArg ctx))) ∧
    ((∃ a ∈ args, validSpec a = false) →
      ∃ e, parseArgs args ctx = .error e) := by
  induction args with
  | nil =>
    constructor
    · intro _
      rfl
    · rintro ⟨a, ha, _⟩
      exact absurd ha (List.not_mem_nil a)
  | cons a rest ih =>
    constructor
    · intro hv
      have hva : validSpec a = true := hv a (List.mem_cons_self a rest)
      unfold validSpec at hva
      rw [Bool.and_eq_true] at hva
      obtain ⟨hname, hsrcv⟩ := hva
      have harg : argValue ctx a = .ok (specArg ctx a) := by
        cases hs : getProp a "source" with
        | str s =>
          rw [hs] at hsrcv
          simp only [Bool.or_eq_true, decide_eq_true_eq] at hsrcv
          unfold argValue specArg
          rw [hs]
          rcases hsrcv with ((h1 | h1) | h1) | h1 <;> subst h1 <;> simp
        | undef => rw [hs] at hsrcv; simp at hsrcv
        | null => rw [hs] at hsrcv; simp at hsrcv
        | bool b => rw [hs] at hsrcv; simp at hsrcv
        | num n => rw [hs] at hsrcv; simp at hsrcv
        | arr es => rw [hs] at hsrcv; simp at hsrcv
        | obj fs => rw [hs] at hsrcv; simp at hsrcv
      have hrest := ih.1 (fun b hb => hv b (List.mem_cons_of_mem a hb))
      simp [parseArgs, hname, harg, hrest]
    · rintro ⟨b, hb, hbad⟩
      rcases List.mem_cons.mp hb with rfl | hbrest
      · by_cases hname : truthy (getProp b "name") = true
        · have hsrc : argValue ctx b = .error (.errorObj "invalid source type") := by
            unfold validSpec at hbad
            rw [hname] at hbad
            simp only [Bool.true_and] at hbad
            unfold argValue
            cases hs : getProp b "source" with
            | str s =>
              rw [hs] at hbad
              simp only [Bool.or_eq_false_iff, decide_eq_false_iff_not] at hbad
              obtain ⟨⟨⟨h1, h2⟩, h3⟩, h4⟩ := hbad
              simp [h1, h2, h3, h4]
            | undef => rfl
            | null => rfl
            | bool bb => rfl
            | num n => rfl
            | arr es => rfl
            | obj fs => rfl
          refine ⟨.errorObj "invalid source type", ?_⟩
          simp [parseArgs, hname, hsrc]
        · have hname2 : truthy (getProp b "name") = false := by
            simpa using hname
          refine ⟨.errorObj "name property is required for each argument", ?_⟩
          simp [parseArgs, hname2]
      · rcases ih.2 ⟨b, hbrest, hbad⟩ with ⟨e, he⟩
        by_cases hname : truthy (getProp a "name") = true
        · rcases hargv : argValue ctx a with e1 | v1
          · exact ⟨e1, by simp [parseArgs, hname, hargv]⟩
          · exact ⟨e, by simp [parseArgs, hname, hargv, he]⟩
        · have hname2 : truthy (getProp a "name") = false := by simpa using hname
          exact ⟨.errorObj "name property is required for each argument",
            by simp [parseArgs, hname2]⟩

/-- Claim C9 witness: a concrete param-sourced and body-sourced spec
pair marshals to the path parameter and the whole body. -/
theorem c9_parse_args_witness :
    parseArgs
      [[("name", .str "id"), ("source", .str "param")],
       [("name", .str "record"), ("source", .str "body")]]
      ⟨[("id", .str "42")], [], .obj [("a", .num 1)], .null⟩ =
      .ok [.str "42", .obj [("a", .num 1)]] := by
  have h := (c9_parse_args
    [[("name", .str "id"), ("source", .str "param")],
     [("name", .str "record"), ("source", .str "body")]]
    ⟨[("id", .str "42")], [], .obj [("a", .num 1)], .null⟩).1 (by decide)
  exact h.trans rfl

theorem dynPutItem_append (t : Table) (fs : Obj)
    (h : ∀ e ∈ t, strictEq (getProp e "id") (getProp fs "id") = false) :
    dynPutItem t fs = t ++ [fs] := by
  induction t with
  | nil => rfl
  | cons e rest ih =>
    have he := h e (List.mem_cons_self e rest)
    simp [dynPutItem, he, ih (fun x hx => h x (List.mem_cons_of_mem e hx))]

theorem filePut_not_found (cn : String) (u : Obj) (st : List Obj)
    (h : ∀ e ∈ st, strictEq (getProp e "id") (getProp u "id") = false) :
    filePut cn u st = (.error (.reject (.str "could not find id")), st) := by
  induction st with
  | nil => rfl
  | cons e rest ih =>
    have he := h e (List.mem_cons_self e rest)
    simp [filePut, he, ih (fun x hx => h x (List.mem_cons_of_mem e hx))]

/-- Claim C1 counterexample: the remote Dynamo adapter's `put`, given a
valid object whose id matches no stored record (here: an empty table),
does not fail with a NotFound-style error — it resolves the object and
silently creates the record. -/
theorem c1_upsert_counterexample :
    dynamoPut "X"
      (.obj [("id", .str "nonexistent"), ("className", .str "X"),
        ("attributes", .obj [("a", .num 1)])]) [] =
      (.ok (.obj [("id", .str "nonexistent"), ("className", .str "X"),
        ("attributes", .obj [("a", .num 1)])]),
       [[("id", .str "nonexistent"), ("className", .str "X"),
        ("attributes", .obj [("a", .num 1)])]]) := rfl

/-- Claim C1 (amended): the local file adapter's `put` on an object
whose id matches no stored record rejects with a `could not find id`
error and leaves the contents untouched; the remote Dynamo adapter's
`put` performs an unconditional write — a valid object of the right
class whose id is absent is appended to the table and the call
resolves, so the Dynamo side silently creates the record instead of
failing. -/
theorem c1_upsert_amended (cn : String) (u : Obj) (st : List Obj) (o : JVal) (t : Table)
    (hfile : ∀ e ∈ st, strictEq (getProp e "id") (getProp u "id") = false)
    (hvalid : (truthy o && truthy (prop o "id") && truthy (prop o "className")
      && truthy (prop o "attributes")) = true)
    (hcn : looseEq (prop o "className") (.str cn) = true)
    (hdyn : ∀ e ∈ t, strictEq (getProp e "id") (prop o "id") = false) :
    filePut cn u st = (.error (.reject (.str "could not find id")), st) ∧
    ∃ fs : Obj, o = .obj fs ∧ dynamoPut cn o t = (.ok o, t ++ [fs]) := by
  refine ⟨filePut_not_found cn u st hfile, ?_⟩
  cases o with
  | obj fs =>
    refine ⟨fs, rfl, ?_⟩
    have hput : dynPutItem t fs = t ++ [fs] := by
      refine dynPutItem_append t fs (fun e he => ?_)
      simpa [prop] using hdyn e he
    simp [dynamoPut, hvalid, hcn, hput]
  | undef => simp [prop, truthy] at hvalid
  | null => simp [prop, truthy] at hvalid
  | bool b => simp [prop, truthy] at hvalid
  | num n => simp [prop, truthy] at hvalid
  | str s => simp [prop, truthy] at hvalid
  | arr es => simp [prop, truthy] at hvalid

/-- Claim C1 witness: concrete miss on the file adapter (reject, no
write) and concrete silent creation on the Dynamo adapter. -/
theorem c1_upsert_witness :
    filePut "X" [("id", .str "zzz")] [[("id", .str "a"), ("class", .str "X")]] =
      (.error (.reject (.str "could not find id")),
        [[("id", .str "a"), ("class", .str "X")]]) ∧
    dynamoPut "X"
      (.obj [("id", .str "b"), ("className", .str "X"), ("attributes", .obj [])])
      [[("id", .str "a"), ("className", .str "X")]] =
      (.ok (.obj [("id", .str "b"), ("className", .str "X"), ("attributes", .obj [])]),
       [[("id", .str "a"), ("className", .str "X")],
        [("id", .str "b"), ("className", .str "X"), ("attributes", .obj [])]]) := by
  have h := c1_upsert_amended "X" [("id", .str "zzz")]
    [[("id", .str "a"), ("class", .str "X")]]
    (.obj [("id", .str "b"), ("className", .str "X"), ("attributes", .obj [])])
    [[("id", .str "a"), ("className", .str "X")]]
    (by decide) (by decide) (by decide) (by decide)
  refine ⟨h.1, ?_⟩
  obtain ⟨fs, hfs, hput⟩ := h.2
  cases hfs
  exact hput

/-- Claim C2 counterexample: the local file adapter's `findById` on an
id with no matching record does not resolve to a miss — it rejects with
an error. -/
theorem c2_findById_counterexample :
    fileFindById "X" (.str "missing") [] =
      .error (.reject (.str "could not find id")) := rfl

/-- Claim C2 (amended): on an id with no matching stored record, the
file adapter's `findById` rejects with a `could not find id` error, the
Dynamo impl's `findById` throws a `TypeError` dereferencing the absent
item's `className`, and the model layer's `findById` throws a
`TypeError` inside `flattenModel`; only the raw `part_000` layer
resolves the miss as `undefined`. -/
theorem c2_findById_amended (cn : String) (key : JVal) (st : List Obj) (t : Table)
    (hfile : ∀ e ∈ st, (strictEq (getProp e "id") key &&
      strictEq (getProp e "class") (.str cn)) = false)
    (ht : ∀ e ∈ t, strictEq (getProp e "id") key = false) :
    fileFindById cn key st = .error (.reject (.str "could not find id")) ∧
    dynFindById cn key t = .error .typeError ∧
    p000FindById key t = .ok .undef ∧
    dbFindById key t = .error .typeError := by
  have hf : st.find? (fun e => strictEq (getProp e "id") key &&
      strictEq (getProp e "class") (.str cn)) = none :=
    List.find?_eq_none.mpr (fun x hx => by simp [hfile x hx])
  have hd : t.find? (fun e => strictEq (getProp e "id") key) = none :=
    List.find?_eq_none.mpr (fun x hx => by simp [ht x hx])
  refine ⟨?_, ?_, ?_, ?_⟩
  · simp [fileFindById, hf]
  · simp [dynFindById, hd]
  · simp [p000FindById, hd]
  · simp [dbFindById, p000FindById, hd, flattenModel, getPropV]

/-- Claim C2 witness: a concrete miss against one-record stores. -/
theorem c2_findById_witness :
    fileFindById "X" (.str "m") [[("id", .str "a"), ("class", .str "X")]] =
      .error (.reject (.str "could not find id")) ∧
    dynFindById "X" (.str "m") [[("id", .str "a"), ("className", .str "X")]] =
      .error .typeError ∧
    p000FindById (.str "m") [[("id", .str "a"), ("className", .str "X")]] = .ok .undef ∧
    dbFindById (.str "m") [[("id", .str "a"), ("className", .str "X")]] =
      .error .typeError :=
  c2_findById_amended "X" (.str "m") [[("id", .str "a"), ("class", .str "X")]]
    [[("id", .str "a"), ("className", .str "X")]] (by decide) (by decide)

theorem strictEq_trans (x y k : JVal) (hx : strictEq x k = true)
    (hy : strictEq y k = true) : strictEq x y = true := by
  cases x <;> cases y <;> cases k <;> simp_all [strictEq]

theorem fileDeleteById_not_found (cn : String) (key : JVal) (st : List Obj)
    (h : ∀ e ∈ st, (strictEq (getProp e "id") key &&
      strictEq (getProp e "class") (.str cn)) = false) :
    fileDeleteById cn key st = (.error (.reject (.bool false)), st) := by
  induction st with
  | nil => rfl
  | cons e rest ih =>
    have he := h e (List.mem_cons_self e rest)
    simp [fileDeleteById, he, ih (fun x hx => h x (List.mem_cons_of_mem e hx))]

theorem fileDeleteById_residual (cn : String) (key : JVal) (st : List Obj) :
    ∀ (st2 : List Obj),
    List.Pairwise (fun a b => strictEq (getProp a "id") (getProp b "id") = false) st →
    fileDeleteById cn key st = (.ok true, st2) →
    ∀ b ∈ st2, (strictEq (getProp b "id") key &&
      strictEq (getProp b "class") (.str cn)) = false := by
  induction st with
  | nil =>
    intro st2 _ hdel
    simp [fileDeleteById] at hdel
  | cons e rest ih =>
    intro st2 hu hdel
    rw [List.pairwise_cons] at hu
    by_cases hm : (strictEq (getProp e "id") key &&
        strictEq (getProp e "class") (.str cn)) = true
    · simp only [fileDeleteById, hm, if_true] at hdel
      have hst2 : rest = st2 := congrArg Prod.snd hdel
      subst hst2
      rw [Bool.and_eq_true] at hm
      intro b hb
      have hpair := hu.1 b hb
      have hbk : strictEq (getProp b "id") key = false := by
        cases hcase : strictEq (getProp b "id") key
        · rfl
        · exact absurd (strictEq_trans (getProp e "id") (getProp b "id") key hm.1 hcase)
            (by simp [hpair])
      simp [hbk]
    · have hm2 : (strictEq (getProp e "id") key &&
          strictEq (getProp e "class") (.str cn)) = false := by
        simpa using hm
      simp only [fileDeleteById, hm2, Bool.false_eq_true, if_false] at hdel
      have h1 : (fileDeleteById cn key rest).1 = .ok true := congrArg Prod.fst hdel
      have h2 : e :: (fileDeleteById cn key rest).2 = st2 := congrArg Prod.snd hdel
      have hr : fileDeleteById cn key rest =
          (.ok true, (fileDeleteById cn key rest).2) := by
        rw [← h1]
      subst h2
      intro b hb
      rcases List.mem_cons.mp hb with rfl | hb2
      · exact hm2
      · exact ih (fileDeleteById cn key rest).2 hu.2 hr b hb2

/-- Claim C6 counterexample: on the Dynamo adapter a successful delete
can be repeated on the now-absent id and the repeat neither fails with
NotFound nor returns false — it resolves `true` again; and the
subsequent `findById` does not report a miss but throws. -/
theorem c6_delete_counterexample :
    dynDeleteById "X" (.str "a") [[("id", .str "a"), ("className", .str "X")]] =
      (.ok true, []) ∧
    dynDeleteById "X" (.str "a") [] = (.ok true, []) ∧
    dynFindById "X" (.str "a") [] = .error .typeError :=
  ⟨rfl, rfl, rfl⟩

/-- Claim C6 (amended): on the file adapter (with pairwise-distinct
stored ids) a successful `deleteById` removes the record, so the
subsequent `findById` rejects with a could-not-find error and the
repeated `deleteById` rejects with the raw value `false`, leaving the
state unchanged; the Dynamo adapter's `deleteById` instead resolves
`true` unconditionally — also when repeated on the erased table. -/
theorem c6_delete_amended (cn : String) (key : JVal) (st st2 : List Obj) (t : Table)
    (hu : List.Pairwise (fun a b => strictEq (getProp a "id") (getProp b "id") = false) st)
    (hdel : fileDeleteById cn key st = (.ok true, st2)) :
    fileFindById cn key st2 = .error (.reject (.str "could not find id")) ∧
    fileDeleteById cn key st2 = (.error (.reject (.bool false)), st2) ∧
    (dynDeleteById cn key t).1 = .ok true ∧
    (dynDeleteById cn key (dynEraseById key t)).1 = .ok true := by
  have hres := fileDeleteById_residual cn key st st2 hu hdel
  have hf : st2.find? (fun e => strictEq (getProp e "id") key &&
      strictEq (getProp e "class") (.str cn)) = none :=
    List.find?_eq_none.mpr (fun x hx => by simp [hres x hx])
  exact ⟨by simp [fileFindById, hf], fileDeleteById_not_found cn key st2 hres, rfl, rfl⟩

/-- Claim C6 witness: deleting the only record of a concrete file store
makes the subsequent lookup and the repeated delete fail. -/
theorem c6_delete_witness :
    fileFindById "X" (.str "a") [] = .error (.reject (.str "could not find id")) ∧
    fileDeleteById "X" (.str "a") [] = (.error (.reject (.bool false)), []) ∧
    (dynDeleteById "X" (.str "a") ([] : Table)).1 = .ok true ∧
    (dynDeleteById "X" (.str "a") (dynEraseById (.str "a") ([] : Table))).1 = .ok true :=
  c6_delete_amended "X" (.str "a") [[("id", .str "a"), ("class", .str "X")]] [] []
    (by decide) (by rfl)

/-- Claim C3 counterexample: the Dynamo adapter's `findByIds` for three
requested ids (one missing) returns a 2-element scan result — the miss
produces no slot at all, so the result shrinks instead of keeping one
slot per input id. -/
theorem c3_findByIds_counterexample :
    dynFindByIds "X" [.str "a", .str "missing", .str "b"]
      [[("id", .str "a"), ("className", .str "X")],
       [("id", .str "b"), ("className", .str "X")]] =
      [[("id", .str "a"), ("className", .str "X")],
       [("id", .str "b"), ("className", .str "X")]] ∧
    (dynFindByIds "X" [.str "a", .str "missing", .str "b"]
      [[("id", .str "a"), ("className", .str "X")],
       [("id", .str "b"), ("className", .str "X")]]).length = 2 ∧
    ([JVal.str "a", .str "missing", .str "b"]).length = 3 :=
  ⟨rfl, rfl, rfl⟩

/-- Claim C3 (amended): the local file adapter's `findByIds` does
return one slot per input id in input order, an id matching no stored
record of the class yielding the distinguishable absent slot
(`undefined`, i.e. `none`) and a matching id yielding a record with
that id; the Dynamo adapter instead returns the subset of the table
(in table order, with no slot for misses) whose class matches and
whose id equals one of the requested ids — or equals the class name
itself, which leaks into the IN-list. -/
theorem c3_findByIds_amended (cn : String) (ids : List JVal) (st : List Obj) (t : Table) :
    (fileFindByIds cn ids st).length = ids.length ∧
    (∀ i (hi : i < ids.length) (hj : i < (fileFindByIds cn ids st).length),
      ((∀ e ∈ fileFindAll cn st,
          strictEq (getProp e "id") (ids.get ⟨i, hi⟩) = false) →
        (fileFindByIds cn ids st).get ⟨i, hj⟩ = none) ∧
      (∀ r, (fileFindByIds cn ids st).get ⟨i, hj⟩ = some r →
        r ∈ fileFindAll cn st ∧ strictEq (getProp r "id") (ids.get ⟨i, hi⟩) = true)) ∧
    (∀ e, e ∈ dynFindByIds cn ids t ↔ (e ∈ t ∧
      strictEq (getProp e "className") (.str cn) = true ∧
      (strictEq (getProp e "id") (.str cn) = true ∨
        ∃ v ∈ ids, strictEq (getProp e "id") v = true))) := by
  refine ⟨by simp [fileFindByIds], ?_, ?_⟩
  · intro i hi hj
    have hval : (fileFindByIds cn ids st).get ⟨i, hj⟩ =
        localFindById (ids.get ⟨i, hi⟩) (fileFindAll cn st) := by
      simp [fileFindByIds, List.get_eq_getElem, List.getElem_map]
    constructor
    · intro hmiss
      rw [hval]
      refine List.find?_eq_none.mpr (fun x hx => ?_)
      simp only [List.get_eq_getElem] at hmiss
      simp [hmiss x hx]
    · intro r hr
      rw [hval] at hr
      unfold localFindById at hr
      refine ⟨List.mem_of_find?_eq_some hr, ?_⟩
      simpa using List.find?_some hr
  · intro e
    simp only [dynFindByIds, List.mem_filter, Bool.and_eq_true, List.any_cons,
      List.any_eq_true, Bool.or_eq_true]

/-- Claim C3 witness: on a concrete one-record file store, the second
of two requested ids is missing and its slot is `none` while the
result keeps one slot per id. -/
theorem c3_findByIds_witness :
    (fileFindByIds "X" [.str "a", .str "m"]
      [[("id", .str "a"), ("class", .str "X")]]).length = 2 ∧
    (fileFindByIds "X" [.str "a", .str "m"]
      [[("id", .str "a"), ("class", .str "X")]]).get ⟨1, by decide⟩ = none := by
  have h := c3_findByIds_amended "X" [.str "a", .str "m"]
    [[("id", .str "a"), ("class", .str "X")]] []
  exact ⟨h.1, (h.2.1 1 (by decide) (by decide)).1 (by decide)⟩

/-- Claim C4: for a well-formed flat object (JSON-representable values,
an `id` key present), tagging through `restoreModel` and flattening
back through `flattenModel` returns the object unchanged — literally so
for the model layer's codec (`src/model-db`, which parks the copied
`id` key on `undefined` and then overwrites it in place), and up to
object equality (same value under every key; the `id` key moves to the
end after the `delete`) for the Dynamo layer's codec
(`src/db-dynamo/index.js`). -/
theorem c4_roundtrip (modelName cn : String) (f : Obj)
    (hrep : noUndefObj f = true) (hid : hasKey f "id" = true) :
    flattenModel (.obj (restoreModel modelName f)) = .ok (.obj f) ∧
    ∃ g : Obj, flattenModel (.obj (dynRestoreModel cn f)) = .ok (.obj g) ∧
      ∀ k, getProp g k = getProp f k := by
  have hnorm := jsonNormObj_of_noUndef f hrep
  constructor
  · unfold flattenModel restoreModel
    simp [getPropV, getProp, truthy, setPropV, hnorm, setProp_setProp,
      setProp_getProp_self f "id" hid]
  · refine ⟨setProp (delProp f "id") "id" (getProp f "id"), ?_, ?_⟩
    · unfold flattenModel dynRestoreModel
      simp [getPropV, getProp, truthy, setPropV, hnorm]
    · intro k
      by_cases hk : k = "id"
      · subst hk
        rw [getProp_setProp_self]
      · rw [getProp_setProp_ne _ _ _ _ (Ne.symm hk)]
        exact getProp_delProp_ne f "id" k (Ne.symm hk)

/-- Claim C4 witness: concrete round trip of a two-field flat object
through both codecs. -/
theorem c4_roundtrip_witness :
    flattenModel (.obj (restoreModel "M" [("id", .str "1"), ("a", .num 2)])) =
      .ok (.obj [("id", .str "1"), ("a", .num 2)]) ∧
    ∃ g : Obj, flattenModel (.obj (dynRestoreModel "M" [("id", .str "1"), ("a", .num 2)])) =
      .ok (.obj g) ∧ ∀ k, getProp g k = getProp [("id", .str "1"), ("a", .num 2)] k :=
  c4_roundtrip "M" "M" [("id", .str "1"), ("a", .num 2)] (by decide) (by decide)

theorem colon_key_inj (a b : String) (h : (":" ++ a : String) = ":" ++ b) : a = b := by
  have hd := congrArg String.data h
  simp [String.data_append] at hd
  exact String.ext hd

theorem all_congr_mem {α : Type} (l : List α) (p q : α → Bool)
    (h : ∀ x ∈ l, p x = q x) : l.all p = l.all q := by
  induction l with
  | nil => rfl
  | cons a rest ih =>
    simp [List.all_cons, h a (List.mem_cons_self a rest),
      ih (fun x hx => h x (List.mem_cons_of_mem a hx))]

theorem foldl_vals_notmem (fields : Obj) (acc : Obj) (k : String)
    (h : ∀ kv ∈ fields, (":" ++ kv.1 : String) ≠ k) :
    getProp (fields.foldl (fun acc kv => setProp acc (":" ++ kv.1) kv.2) acc) k =
      getProp acc k := by
  induction fields generalizing acc with
  | nil => rfl
  | cons kv rest ih =>
    simp only [List.foldl_cons]
    rw [ih _ (fun x hx => h x (List.mem_cons_of_mem kv hx))]
    exact getProp_setProp_ne acc _ k _ (h kv (List.mem_cons_self kv rest))

theorem foldl_vals_mem (fields : Obj) (acc : Obj) (n : String) (v : JVal)
    (hnd : (fields.map Prod.fst).Nodup) (hmem : (n, v) ∈ fields) :
    getProp (fields.foldl (fun acc kv => setProp acc (":" ++ kv.1) kv.2) acc)
      (":" ++ n) = v := by
  induction fields generalizing acc with
  | nil => cases hmem
  | cons kv rest ih =>
    simp only [List.map_cons, List.nodup_cons] at hnd
    simp only [List.foldl_cons]
    rcases List.mem_cons.mp hmem with heq | h2
    · have hkv1 : kv.1 = n := by rw [← heq]
      have hkv2 : kv.2 = v := by rw [← heq]
      rw [hkv1, hkv2]
      rw [foldl_vals_notmem rest _ _ ?hrest]
      · exact getProp_setProp_self acc (":" ++ n) v
      case hrest =>
        intro x hx hxeq
        have hx1 : x.1 = n := colon_key_inj x.1 n hxeq
        exact (hkv1 ▸ hnd.1) (hx1 ▸ List.mem_map_of_mem Prod.fst hx)
    · exact ih (setProp acc (":" ++ kv.1) kv.2) hnd.2 h2

/-- Claim C5 counterexample: the file adapter's `findByFields` matches
with JavaScript loose equality, so a search for the string value `"1"`
returns a record whose attribute is the number `1`, which is not equal
to `"1"` under exact (typed) equality — the result therefore contains a
record whose attribute does not equal the requested value. -/
theorem c5_findByFields_counterexample :
    fileFindByFields "X" [("a", .str "1")]
      [[("id", .str "r1"), ("class", .str "X"), ("a", .num 1)]] =
      [[("id", .str "r1"), ("class", .str "X"), ("a", .num 1)]] ∧
    strictEq (.num 1) (.str "1") = false ∧
    (JVal.num 1 = JVal.str "1" → False) := by
  refine ⟨rfl, rfl, fun h => by cases h⟩

/-- Claim C5 (amended): with an empty field map both adapters return
exactly `findAll`.  With a nonempty map, the Dynamo adapter returns
exactly the stored records of the adapter's class whose attributes
equal every given value under exact (typed) equality — provided no
field is named `className` (such a field would overwrite the class
placeholder) and field names are distinct; the file adapter instead
filters its class's records by JavaScript loose equality of each field
value against the whole flat record, so values of different types that
coerce equal (for example `1` and `"1"`) also match. -/
theorem c5_findByFields_amended (cn : String) (fields : Obj) (st : List Obj) (t : Table)
    (hnd : (fields.map Prod.fst).Nodup)
    (hncn : ∀ kv ∈ fields, kv.1 ≠ "className") :
    fileFindByFields cn [] st = fileFindAll cn st ∧
    dynFindByFields cn [] t = dynFindAll cn t ∧
    fileFindByFields cn fields st =
      (fileFindAll cn st).filter
        (fun r => fields.all (fun kv => looseEq kv.2 (getProp r kv.1))) ∧
    dynFindByFields cn fields t =
      t.filter (fun e => strictEq (getProp e "className") (.str cn) &&
        fields.all (fun kv => strictEq (prop (getProp e "attributes") kv.1) kv.2)) := by
  refine ⟨?_, ?_, rfl, ?_⟩
  · simp [fileFindByFields, fieldsMatch]
  · simp [dynFindByFields, dynFindAll, getProp]
  · unfold dynFindByFields
    have hcc : (":className" : String) = ":" ++ "className" := rfl
    have hcnv : getProp
        (fields.foldl (fun acc kv => setProp acc (":" ++ kv.1) kv.2)
          [(":className", JVal.str cn)]) ":className" = .str cn := by
      rw [foldl_vals_notmem fields _ ":className" (fun kv hkv hkeq =>
        hncn kv hkv (colon_key_inj kv.1 "className" (hkeq.trans hcc)))]
      rfl
    refine List.filter_congr (fun e he => ?_)
    rw [hcnv]
    rw [all_congr_mem fields _ _ (fun kv hkv => ?_)]
    rw [foldl_vals_mem fields _ kv.1 kv.2 hnd hkv]

/-- Claim C5 witness: concrete exact-equality search on the Dynamo
adapter and the empty-map/findAll agreement on both adapters. -/
theorem c5_findByFields_witness :
    fileFindByFields "X" []
      [[("id", .str "r1"), ("class", .str "X"), ("a", .num 1)]] =
      fileFindAll "X" [[("id", .str "r1"), ("class", .str "X"), ("a", .num 1)]] ∧
    dynFindByFields "X" []
      [[("id", .str "r1"), ("className", .str "X"),
        ("attributes", .obj [("a", .num 1)])]] =
      dynFindAll "X" [[("id", .str "r1"), ("className", .str "X"),
        ("attributes", .obj [("a", .num 1)])]] ∧
    dynFindByFields "X" [("a", .num 1)]
      [[("id", .str "r1"), ("className", .str "X"),
        ("attributes", .obj [("a", .num 1)])],
       [("id", .str "r2"), ("className", .str "X"),
        ("attributes", .obj [("a", .num 2)])]] =
      [[("id", .str "r1"), ("className", .str "X"),
        ("attributes", .obj [("a", .num 1)])]] := by
  have h1 := c5_findByFields_amended "X" []
    [[("id", .str "r1"), ("class", .str "X"), ("a", .num 1)]]
    [[("id", .str "r1"), ("className", .str "X"),
      ("attributes", .obj [("a", .num 1)])]] (by decide) (by decide)
  have h2 := c5_findByFields_amended "X" [("a", .num 1)] []
    [[("id", .str "r1"), ("className", .str "X"),
      ("attributes", .obj [("a", .num 1)])],
     [("id", .str "r2"), ("className", .str "X"),
      ("attributes", .obj [("a", .num 2)])]] (by decide) (by decide)
  exact ⟨h1.1, h1.2.1, h2.2.2.2.trans rfl⟩

end ApiServer
